import Mathlib

/-!
Verification of the gesture decoder in `src/lib/gesture.ts`.

The decoder is shallowly embedded:
* positions (`clientX`, `clientY`) are rationals, idealising JS numbers;
* `Math.sqrt` is an uninterpreted parameter `mathSqrt : ℚ → ℚ` — no theorem
  below depends on any property of the square root;
* JS division is `jsDiv`: its result is `none` when the divisor is zero,
  standing for the non-finite value (Infinity or NaN) IEEE division yields
  there, and `some` of the exact quotient otherwise;
* each handler field of the class is embedded as a `Bool` recording whether a
  handler is registered (`handler != null`); dispatch is embedded as the list
  of events the processed notification hands to registered handlers;
* an out-of-bounds access such as `this.cache[0]` on an empty cache throws a
  TypeError in JS, so every operation returns an `Option`: `none` is a thrown
  error, `some` carries the new decoder state and the dispatched events.
-/

/-- A cached pointer contact: stable identity plus last known position.
Mirrors the `PointerEvent` fields the source reads. -/
structure PointerEvent where
  pointerId : ℕ
  clientX : ℚ
  clientY : ℚ
deriving DecidableEq

/-- Payload of drag events: accumulated displacement since drag start. -/
structure DragEvent where
  x : ℚ
  y : ℚ
deriving DecidableEq

/-- Payload of zoom events.  `scale = none` encodes a non-finite JS number
(the unguarded division by a zero zoom anchor). -/
structure ZoomEvent where
  x : ℚ
  y : ℚ
  scale : Option ℚ
deriving DecidableEq

/-- One dispatched gesture event (invocation of a registered handler). -/
inductive GestureEvent where
  | dragstart (e : DragEvent)
  | dragupdate (e : DragEvent)
  | dragstop (e : DragEvent)
  | zoomstart (e : ZoomEvent)
  | zoomupdate (e : ZoomEvent)
  | zoomstop (e : ZoomEvent)
deriving DecidableEq

/-- The decoder state: the contact cache, the drag anchor `x`,`y`, the zoom
anchor `delta`, and one registration flag per handler field of the class. -/
structure GestureDecoder where
  cache : List PointerEvent
  x : ℚ
  y : ℚ
  delta : ℚ
  dragStartHandler : Bool
  dragUpdateHandler : Bool
  dragStopHandler : Bool
  zoomStartHandler : Bool
  zoomUpdateHandler : Bool
  zoomStopHandler : Bool
deriving DecidableEq

/-- The decoder as the constructor leaves it: empty cache, zeroed anchors, no
registered handlers. -/
def initialDecoder : GestureDecoder :=
  ⟨[], 0, 0, 0, false, false, false, false, false, false⟩

/-- JS division: `none` models the non-finite result (Infinity or NaN) of
dividing by zero; otherwise the exact quotient. -/
def jsDiv (a b : ℚ) : Option ℚ :=
  if b = 0 then none else some (a / b)

/-- The update loop of `handlePointerMove`: overwrite the first cache entry
whose `pointerId` matches the incoming event (the loop breaks after the first
hit); if none matches the cache is left as is. -/
def replaceFirst : List PointerEvent → PointerEvent → List PointerEvent
  | [], _ => []
  | c :: rest, event =>
    if c.pointerId = event.pointerId then event :: rest
    else c :: replaceFirst rest event

/-- The removal loop of `handlePointerUp`: splice out the first cache entry
whose `pointerId` matches; if none matches the cache is left as is. -/
def removeFirst : List PointerEvent → ℕ → List PointerEvent
  | [], _ => []
  | c :: rest, pid =>
    if c.pointerId = pid then rest
    else c :: removeFirst rest pid

/-- `startDrag`: record the drag anchor from `cache[0]`, then report a
`dragstart` whose displacement is computed from the freshly written anchor. -/
def startDrag (s : GestureDecoder) : Option (GestureDecoder × List GestureEvent) :=
  match s.cache with
  | [] => none
  | c :: _ =>
    let s1 : GestureDecoder := { s with x := c.clientX, y := c.clientY }
    some (s1,
      if s1.dragStartHandler then
        [GestureEvent.dragstart ⟨c.clientX - s1.x, c.clientY - s1.y⟩]
      else [])

/-- `updateDrag`: report the displacement of `cache[0]` from the drag anchor.
The cache is only read when a handler is registered, as in the source. -/
def updateDrag (s : GestureDecoder) : Option (GestureDecoder × List GestureEvent) :=
  if s.dragUpdateHandler then
    match s.cache with
    | [] => none
    | c :: _ =>
      some (s, [GestureEvent.dragupdate ⟨c.clientX - s.x, c.clientY - s.y⟩])
  else some (s, [])

/-- `stopDrag`: same displacement formula as `updateDrag`, as a `dragstop`. -/
def stopDrag (s : GestureDecoder) : Option (GestureDecoder × List GestureEvent) :=
  if s.dragStopHandler then
    match s.cache with
    | [] => none
    | c :: _ =>
      some (s, [GestureEvent.dragstop ⟨c.clientX - s.x, c.clientY - s.y⟩])
  else some (s, [])

/-- `startZoom`: record the zoom anchor as the distance between `cache[0]`
and `cache[1]`, then report a `zoomstart` at their midpoint with scale 1. -/
def startZoom (mathSqrt : ℚ → ℚ) (s : GestureDecoder) :
    Option (GestureDecoder × List GestureEvent) :=
  match s.cache with
  | c0 :: c1 :: _ =>
    let deltaX := c0.clientX - c1.clientX
    let deltaY := c0.clientY - c1.clientY
    let s1 : GestureDecoder := { s with delta := mathSqrt (deltaX * deltaX + deltaY * deltaY) }
    some (s1,
      if s1.zoomStartHandler then
        [GestureEvent.zoomstart
          ⟨(c0.clientX + c1.clientX) / 2, (c0.clientY + c1.clientY) / 2, some 1⟩]
      else [])
  | _ => none

/-- `updateZoom`: report the current midpoint of `cache[0]`/`cache[1]` and the
current distance divided by the zoom anchor.  The cache is only read when a
handler is registered, as in the source. -/
def updateZoom (mathSqrt : ℚ → ℚ) (s : GestureDecoder) :
    Option (GestureDecoder × List GestureEvent) :=
  if s.zoomUpdateHandler then
    match s.cache with
    | c0 :: c1 :: _ =>
      let x := (c0.clientX + c1.clientX) / 2
      let y := (c0.clientY + c1.clientY) / 2
      let deltaX := c0.clientX - c1.clientX
      let deltaY := c0.clientY - c1.clientY
      let delta := mathSqrt (deltaX * deltaX + deltaY * deltaY)
      some (s, [GestureEvent.zoomupdate ⟨x, y, jsDiv delta s.delta⟩])
    | _ => none
  else some (s, [])

/-- `stopZoom`: same payload formula as `updateZoom`, as a `zoomstop`. -/
def stopZoom (mathSqrt : ℚ → ℚ) (s : GestureDecoder) :
    Option (GestureDecoder × List GestureEvent) :=
  if s.zoomStopHandler then
    match s.cache with
    | c0 :: c1 :: _ =>
      let x := (c0.clientX + c1.clientX) / 2
      let y := (c0.clientY + c1.clientY) / 2
      let deltaX := c0.clientX - c1.clientX
      let deltaY := c0.clientY - c1.clientY
      let delta := mathSqrt (deltaX * deltaX + deltaY * deltaY)
      some (s, [GestureEvent.zoomstop ⟨x, y, jsDiv delta s.delta⟩])
    | _ => none
  else some (s, [])

/-- `handlePointerDown`: push the event, then switch on the new cache size
(the source's `switch` statement is rendered as an if-chain on the size). -/
def handlePointerDown (mathSqrt : ℚ → ℚ) (s : GestureDecoder) (event : PointerEvent) :
    Option (GestureDecoder × List GestureEvent) :=
  let s1 : GestureDecoder := { s with cache := s.cache ++ [event] }
  if s1.cache.length = 1 then startDrag s1
  else if s1.cache.length = 2 then
    match stopDrag s1 with
    | none => none
    | some (s2, evs1) =>
      match startZoom mathSqrt s2 with
      | none => none
      | some (s3, evs2) => some (s3, evs1 ++ evs2)
  else if s1.cache.length = 3 then stopZoom mathSqrt s1
  else some (s1, [])

/-- `handlePointerMove`: overwrite the matching cache entry, then switch on
the (unchanged) cache size. -/
def handlePointerMove (mathSqrt : ℚ → ℚ) (s : GestureDecoder) (event : PointerEvent) :
    Option (GestureDecoder × List GestureEvent) :=
  let s1 : GestureDecoder := { s with cache := replaceFirst s.cache event }
  if s1.cache.length = 1 then updateDrag s1
  else if s1.cache.length = 2 then updateZoom mathSqrt s1
  else some (s1, [])

/-- `handlePointerUp`: switch on the cache size before removal, splice out the
matching entry, then run the deferred `startDrag` when leaving a zoom. -/
def handlePointerUp (mathSqrt : ℚ → ℚ) (s : GestureDecoder) (event : PointerEvent) :
    Option (GestureDecoder × List GestureEvent) :=
  if s.cache.length = 1 then
    match stopDrag s with
    | none => none
    | some (s1, evs1) =>
      some ({ s1 with cache := removeFirst s1.cache event.pointerId }, evs1)
  else if s.cache.length = 2 then
    match stopZoom mathSqrt s with
    | none => none
    | some (s1, evs1) =>
      let s2 : GestureDecoder := { s1 with cache := removeFirst s1.cache event.pointerId }
      match startDrag s2 with
      | none => none
      | some (s3, evs2) => some (s3, evs1 ++ evs2)
  else if s.cache.length = 3 then
    match startZoom mathSqrt s with
    | none => none
    | some (s1, evs1) =>
      some ({ s1 with cache := removeFirst s1.cache event.pointerId }, evs1)
  else some ({ s with cache := removeFirst s.cache event.pointerId }, [])

/-- One raw input notification, as classified by the constructor's listener
registrations: `down` is `pointerdown`, `move` is `pointermove`, and `up`
collects `pointerup`, `pointercancel`, `pointerout` and `pointerleave`. -/
inductive Notification where
  | down (event : PointerEvent)
  | move (event : PointerEvent)
  | up (event : PointerEvent)
deriving DecidableEq

/-- Process one notification. -/
def step (mathSqrt : ℚ → ℚ) (s : GestureDecoder) :
    Notification → Option (GestureDecoder × List GestureEvent)
  | Notification.down event => handlePointerDown mathSqrt s event
  | Notification.move event => handlePointerMove mathSqrt s event
  | Notification.up event => handlePointerUp mathSqrt s event

/-- Process a sequence of notifications, accumulating dispatched events. -/
def run (mathSqrt : ℚ → ℚ) (s : GestureDecoder) :
    List Notification → Option (GestureDecoder × List GestureEvent)
  | [] => some (s, [])
  | n :: rest =>
    match step mathSqrt s n with
    | none => none
    | some (s1, evs1) =>
      match run mathSqrt s1 rest with
      | none => none
      | some (s2, evs2) => some (s2, evs1 ++ evs2)

/-- The identities of the `down` notifications of a trace, in arrival order. -/
def downIds : List Notification → List ℕ
  | [] => []
  | Notification.down event :: rest => event.pointerId :: downIds rest
  | _ :: rest => downIds rest

/-- A trace is fresh from a state when every `down` carries an identity not
currently cached at the moment it is applied. -/
def freshFrom (mathSqrt : ℚ → ℚ) : GestureDecoder → List Notification → Bool
  | _, [] => true
  | s, n :: rest =>
    (match n with
     | Notification.down event =>
       !((s.cache.map PointerEvent.pointerId).contains event.pointerId)
     | _ => true) &&
    (match step mathSqrt s n with
     | none => true
     | some (s1, _) => freshFrom mathSqrt s1 rest)

/-- The six registration flags, bundled for frame reasoning. -/
def handlersOf (s : GestureDecoder) : Bool × Bool × Bool × Bool × Bool × Bool :=
  (s.dragStartHandler, s.dragUpdateHandler, s.dragStopHandler,
   s.zoomStartHandler, s.zoomUpdateHandler, s.zoomStopHandler)

/-- The cache contents after one notification: `down` appends, `move` rewrites
the first matching entry in place, `up` splices out the first matching entry. -/
def cacheAfter (s : GestureDecoder) : Notification → List PointerEvent
  | Notification.down event => s.cache ++ [event]
  | Notification.move event => replaceFirst s.cache event
  | Notification.up event => removeFirst s.cache event.pointerId

/-! ### Characterisations of the six gesture operations -/

theorem startDrag_eq (s : GestureDecoder) (c : PointerEvent) (rest : List PointerEvent)
    (h : s.cache = c :: rest) :
    startDrag s = some ({ s with x := c.clientX, y := c.clientY },
      if s.dragStartHandler then [GestureEvent.dragstart ⟨0, 0⟩] else []) := by
  simp [startDrag, h, sub_self]

theorem updateDrag_eq (s : GestureDecoder) (c : PointerEvent) (rest : List PointerEvent)
    (h : s.cache = c :: rest) :
    updateDrag s = some (s,
      if s.dragUpdateHandler then
        [GestureEvent.dragupdate ⟨c.clientX - s.x, c.clientY - s.y⟩]
      else []) := by
  cases hb : s.dragUpdateHandler <;> simp [updateDrag, h, hb]

theorem stopDrag_eq (s : GestureDecoder) (c : PointerEvent) (rest : List PointerEvent)
    (h : s.cache = c :: rest) :
    stopDrag s = some (s,
      if s.dragStopHandler then
        [GestureEvent.dragstop ⟨c.clientX - s.x, c.clientY - s.y⟩]
      else []) := by
  cases hb : s.dragStopHandler <;> simp [stopDrag, h, hb]

theorem startZoom_eq (mathSqrt : ℚ → ℚ) (s : GestureDecoder) (c0 c1 : PointerEvent)
    (rest : List PointerEvent) (h : s.cache = c0 :: c1 :: rest) :
    startZoom mathSqrt s = some
      ({ s with delta := mathSqrt ((c0.clientX - c1.clientX) * (c0.clientX - c1.clientX) +
          (c0.clientY - c1.clientY) * (c0.clientY - c1.clientY)) },
       if s.zoomStartHandler then
         [GestureEvent.zoomstart
           ⟨(c0.clientX + c1.clientX) / 2, (c0.clientY + c1.clientY) / 2, some 1⟩]
       else []) := by
  simp [startZoom, h]

theorem updateZoom_eq (mathSqrt : ℚ → ℚ) (s : GestureDecoder) (c0 c1 : PointerEvent)
    (rest : List PointerEvent) (h : s.cache = c0 :: c1 :: rest) :
    updateZoom mathSqrt s = some (s,
      if s.zoomUpdateHandler then
        [GestureEvent.zoomupdate
          ⟨(c0.clientX + c1.clientX) / 2, (c0.clientY + c1.clientY) / 2,
           jsDiv (mathSqrt ((c0.clientX - c1.clientX) * (c0.clientX - c1.clientX) +
             (c0.clientY - c1.clientY) * (c0.clientY - c1.clientY))) s.delta⟩]
      else []) := by
  cases hb : s.zoomUpdateHandler <;> simp [updateZoom, h, hb]

theorem stopZoom_eq (mathSqrt : ℚ → ℚ) (s : GestureDecoder) (c0 c1 : PointerEvent)
    (rest : List PointerEvent) (h : s.cache = c0 :: c1 :: rest) :
    stopZoom mathSqrt s = some (s,
      if s.zoomStopHandler then
        [GestureEvent.zoomstop
          ⟨(c0.clientX + c1.clientX) / 2, (c0.clientY + c1.clientY) / 2,
           jsDiv (mathSqrt ((c0.clientX - c1.clientX) * (c0.clientX - c1.clientX) +
             (c0.clientY - c1.clientY) * (c0.clientY - c1.clientY))) s.delta⟩]
      else []) := by
  cases hb : s.zoomStopHandler <;> simp [stopZoom, h, hb]

/-! ### Frame lemmas: which fields each operation can touch -/

theorem updateDrag_state (s : GestureDecoder) (r : GestureDecoder × List GestureEvent)
    (h : updateDrag s = some r) : r.1 = s := by
  cases hb : s.dragUpdateHandler <;> cases hc : s.cache <;>
    simp [updateDrag, hb, hc] at h <;> subst h <;> rfl

theorem stopDrag_state (s : GestureDecoder) (r : GestureDecoder × List GestureEvent)
    (h : stopDrag s = some r) : r.1 = s := by
  cases hb : s.dragStopHandler <;> cases hc : s.cache <;>
    simp [stopDrag, hb, hc] at h <;> subst h <;> rfl

theorem updateZoom_state (mathSqrt : ℚ → ℚ) (s : GestureDecoder)
    (r : GestureDecoder × List GestureEvent) (h : updateZoom mathSqrt s = some r) : r.1 = s := by
  cases hb : s.zoomUpdateHandler
  · simp [updateZoom, hb] at h
    subst h
    rfl
  · match hc : s.cache with
    | [] => simp [updateZoom, hb, hc] at h
    | [c] => simp [updateZoom, hb, hc] at h
    | c0 :: c1 :: rest =>
      simp [updateZoom, hb, hc] at h
      subst h
      rfl

theorem stopZoom_state (mathSqrt : ℚ → ℚ) (s : GestureDecoder)
    (r : GestureDecoder × List GestureEvent) (h : stopZoom mathSqrt s = some r) : r.1 = s := by
  cases hb : s.zoomStopHandler
  · simp [stopZoom, hb] at h
    subst h
    rfl
  · match hc : s.cache with
    | [] => simp [stopZoom, hb, hc] at h
    | [c] => simp [stopZoom, hb, hc] at h
    | c0 :: c1 :: rest =>
      simp [stopZoom, hb, hc] at h
      subst h
      rfl

theorem startDrag_shape (s : GestureDecoder) (r : GestureDecoder × List GestureEvent)
    (h : startDrag s = some r) : ∃ a b, r.1 = { s with x := a, y := b } := by
  match hc : s.cache with
  | [] => simp [startDrag, hc] at h
  | c :: rest =>
    refine ⟨c.clientX, c.clientY, ?_⟩
    simp [startDrag, hc] at h
    subst h
    simp [hc]

theorem startZoom_shape (mathSqrt : ℚ → ℚ) (s : GestureDecoder)
    (r : GestureDecoder × List GestureEvent) (h : startZoom mathSqrt s = some r) :
    ∃ d, r.1 = { s with delta := d } := by
  match hc : s.cache with
  | [] => simp [startZoom, hc] at h
  | [c] => simp [startZoom, hc] at h
  | c0 :: c1 :: rest =>
    refine ⟨mathSqrt ((c0.clientX - c1.clientX) * (c0.clientX - c1.clientX) +
      (c0.clientY - c1.clientY) * (c0.clientY - c1.clientY)), ?_⟩
    simp [startZoom, hc] at h
    subst h
    simp [hc]

theorem startDrag_cache (s : GestureDecoder) (r : GestureDecoder × List GestureEvent)
    (h : startDrag s = some r) :
    r.1.cache = s.cache ∧ r.1.delta = s.delta ∧ handlersOf r.1 = handlersOf s := by
  obtain ⟨a, b, hr⟩ := startDrag_shape s r h
  simp [hr, handlersOf]

theorem startZoom_cache (mathSqrt : ℚ → ℚ) (s : GestureDecoder)
    (r : GestureDecoder × List GestureEvent) (h : startZoom mathSqrt s = some r) :
    r.1.cache = s.cache ∧ r.1.x = s.x ∧ r.1.y = s.y ∧ handlersOf r.1 = handlersOf s := by
  obtain ⟨d, hr⟩ := startZoom_shape mathSqrt s r h
  simp [hr, handlersOf]

/-! ### Dispatch is empty when the relevant handler is not registered -/

theorem startDrag_events (s : GestureDecoder) (r : GestureDecoder × List GestureEvent)
    (h : startDrag s = some r) (hb : s.dragStartHandler = false) : r.2 = [] := by
  match hc : s.cache with
  | [] => simp [startDrag, hc] at h
  | c :: rest =>
    simp [startDrag, hc, hb] at h
    subst h
    rfl

theorem updateDrag_events (s : GestureDecoder) (r : GestureDecoder × List GestureEvent)
    (h : updateDrag s = some r) (hb : s.dragUpdateHandler = false) : r.2 = [] := by
  simp [updateDrag, hb] at h
  subst h
  rfl

theorem stopDrag_events (s : GestureDecoder) (r : GestureDecoder × List GestureEvent)
    (h : stopDrag s = some r) (hb : s.dragStopHandler = false) : r.2 = [] := by
  simp [stopDrag, hb] at h
  subst h
  rfl

theorem startZoom_events (mathSqrt : ℚ → ℚ) (s : GestureDecoder)
    (r : GestureDecoder × List GestureEvent)
    (h : startZoom mathSqrt s = some r) (hb : s.zoomStartHandler = false) : r.2 = [] := by
  match hc : s.cache with
  | [] => simp [startZoom, hc] at h
  | [c] => simp [startZoom, hc] at h
  | c0 :: c1 :: rest =>
    simp [startZoom, hc, hb] at h
    subst h
    rfl

theorem updateZoom_events (mathSqrt : ℚ → ℚ) (s : GestureDecoder)
    (r : GestureDecoder × List GestureEvent)
    (h : updateZoom mathSqrt s = some r) (hb : s.zoomUpdateHandler = false) : r.2 = [] := by
  simp [updateZoom, hb] at h
  subst h
  rfl

theorem stopZoom_events (mathSqrt : ℚ → ℚ) (s : GestureDecoder)
    (r : GestureDecoder × List GestureEvent)
    (h : stopZoom mathSqrt s = some r) (hb : s.zoomStopHandler = false) : r.2 = [] := by
  simp [stopZoom, hb] at h
  subst h
  rfl

/-! ### The operations succeed whenever the cache is long enough -/

theorem startDrag_isSome (s : GestureDecoder) (h : s.cache ≠ []) : (startDrag s).isSome := by
  match hc : s.cache with
  | [] => exact absurd hc h
  | c :: rest => simp [startDrag, hc]

theorem updateDrag_isSome (s : GestureDecoder) (h : s.cache ≠ []) : (updateDrag s).isSome := by
  match hc : s.cache, hb : s.dragUpdateHandler with
  | [], _ => exact absurd hc h
  | c :: rest, true => simp [updateDrag, hc, hb]
  | c :: rest, false => simp [updateDrag, hc, hb]

theorem stopDrag_isSome (s : GestureDecoder) (h : s.cache ≠ []) : (stopDrag s).isSome := by
  match hc : s.cache, hb : s.dragStopHandler with
  | [], _ => exact absurd hc h
  | c :: rest, true => simp [stopDrag, hc, hb]
  | c :: rest, false => simp [stopDrag, hc, hb]

theorem startZoom_isSome (mathSqrt : ℚ → ℚ) (s : GestureDecoder)
    (h : 2 ≤ s.cache.length) : (startZoom mathSqrt s).isSome := by
  match hc : s.cache with
  | [] => rw [hc] at h; simp at h
  | [c] => rw [hc] at h; simp at h
  | c0 :: c1 :: rest => simp [startZoom, hc]

theorem updateZoom_isSome (mathSqrt : ℚ → ℚ) (s : GestureDecoder)
    (h : 2 ≤ s.cache.length) : (updateZoom mathSqrt s).isSome := by
  cases hb : s.zoomUpdateHandler
  · simp [updateZoom, hb]
  · match hc : s.cache with
    | [] => rw [hc] at h; simp at h
    | [c] => rw [hc] at h; simp at h
    | c0 :: c1 :: rest => simp [updateZoom, hc, hb]

theorem stopZoom_isSome (mathSqrt : ℚ → ℚ) (s : GestureDecoder)
    (h : 2 ≤ s.cache.length) : (stopZoom mathSqrt s).isSome := by
  cases hb : s.zoomStopHandler
  · simp [stopZoom, hb]
  · match hc : s.cache with
    | [] => rw [hc] at h; simp at h
    | [c] => rw [hc] at h; simp at h
    | c0 :: c1 :: rest => simp [stopZoom, hc, hb]

/-! ### Facts about the two cache loops -/

theorem replaceFirst_length (l : List PointerEvent) (event : PointerEvent) :
    (replaceFirst l event).length = l.length := by
  induction l with
  | nil => rfl
  | cons c rest ih =>
    by_cases hp : c.pointerId = event.pointerId <;> simp [replaceFirst, hp, ih]

theorem replaceFirst_map_pointerId (l : List PointerEvent) (event : PointerEvent) :
    (replaceFirst l event).map PointerEvent.pointerId = l.map PointerEvent.pointerId := by
  induction l with
  | nil => rfl
  | cons c rest ih =>
    by_cases hp : c.pointerId = event.pointerId
    · simp [replaceFirst, hp]
    · simp [replaceFirst, hp, ih]

theorem replaceFirst_not_mem (l : List PointerEvent) (event : PointerEvent)
    (h : event.pointerId ∉ l.map PointerEvent.pointerId) : replaceFirst l event = l := by
  induction l with
  | nil => rfl
  | cons c rest ih =>
    simp at h
    have hp : ¬ c.pointerId = event.pointerId := fun hp => h.1 hp.symm
    simp [replaceFirst, hp, ih (by simp; exact h.2)]

theorem removeFirst_sublist (l : List PointerEvent) (pid : ℕ) :
    (removeFirst l pid).Sublist l := by
  induction l with
  | nil => simp [removeFirst]
  | cons c rest ih =>
    by_cases hp : c.pointerId = pid
    · simp [removeFirst, hp]
    · simpa [removeFirst, hp] using List.Sublist.cons₂ c ih

theorem removeFirst_not_mem (l : List PointerEvent) (pid : ℕ)
    (h : pid ∉ l.map PointerEvent.pointerId) : removeFirst l pid = l := by
  induction l with
  | nil => rfl
  | cons c rest ih =>
    simp at h
    have hp : ¬ c.pointerId = pid := fun hp => h.1 hp.symm
    simp [removeFirst, hp, ih (by simp; exact h.2)]

theorem removeFirst_length (l : List PointerEvent) (pid : ℕ) :
    l.length ≤ (removeFirst l pid).length + 1 := by
  induction l with
  | nil => simp [removeFirst]
  | cons c rest ih =>
    by_cases hp : c.pointerId = pid
    · simp [removeFirst, hp]
    · simp [removeFirst, hp]
      omega

/-! ### Per-shape characterisations of the three notification handlers -/

theorem handlePointerDown_zero (f : ℚ → ℚ) (s : GestureDecoder) (ev : PointerEvent)
    (hc : s.cache = []) :
    handlePointerDown f s ev = some ({ s with cache := [ev], x := ev.clientX, y := ev.clientY },
      if s.dragStartHandler then [GestureEvent.dragstart ⟨0, 0⟩] else []) := by
  cases hb : s.dragStartHandler <;> simp [handlePointerDown, hc, startDrag, hb, sub_self]

theorem handlePointerDown_one (f : ℚ → ℚ) (s : GestureDecoder) (a ev : PointerEvent)
    (hc : s.cache = [a]) :
    handlePointerDown f s ev = some (
      { s with cache := [a, ev],
               delta := f ((a.clientX - ev.clientX) * (a.clientX - ev.clientX) +
                 (a.clientY - ev.clientY) * (a.clientY - ev.clientY)) },
      (if s.dragStopHandler then
        [GestureEvent.dragstop ⟨a.clientX - s.x, a.clientY - s.y⟩] else []) ++
      (if s.zoomStartHandler then
        [GestureEvent.zoomstart
          ⟨(a.clientX + ev.clientX) / 2, (a.clientY + ev.clientY) / 2, some 1⟩] else [])) := by
  cases hb1 : s.dragStopHandler <;> cases hb2 : s.zoomStartHandler <;>
    simp [handlePointerDown, hc, stopDrag, startZoom, hb1, hb2]

theorem handlePointerDown_two (f : ℚ → ℚ) (s : GestureDecoder) (a b ev : PointerEvent)
    (hc : s.cache = [a, b]) :
    handlePointerDown f s ev = some ({ s with cache := [a, b, ev] },
      if s.zoomStopHandler then
        [GestureEvent.zoomstop
          ⟨(a.clientX + b.clientX) / 2, (a.clientY + b.clientY) / 2,
           jsDiv (f ((a.clientX - b.clientX) * (a.clientX - b.clientX) +
             (a.clientY - b.clientY) * (a.clientY - b.clientY))) s.delta⟩]
      else []) := by
  cases hb : s.zoomStopHandler <;> simp [handlePointerDown, hc, stopZoom, hb]

theorem handlePointerDown_big (f : ℚ → ℚ) (s : GestureDecoder) (ev : PointerEvent)
    (h : 3 ≤ s.cache.length) :
    handlePointerDown f s ev = some ({ s with cache := s.cache ++ [ev] }, []) := by
  simp only [handlePointerDown, List.length_append, List.length_cons, List.length_nil]
  rw [if_neg (by omega), if_neg (by omega), if_neg (by omega)]

theorem handlePointerMove_one (f : ℚ → ℚ) (s : GestureDecoder) (ev : PointerEvent)
    (h : s.cache.length = 1) :
    handlePointerMove f s ev = updateDrag { s with cache := replaceFirst s.cache ev } := by
  simp only [handlePointerMove, replaceFirst_length]
  rw [if_pos h]

theorem handlePointerMove_two (f : ℚ → ℚ) (s : GestureDecoder) (ev : PointerEvent)
    (h : s.cache.length = 2) :
    handlePointerMove f s ev = updateZoom f { s with cache := replaceFirst s.cache ev } := by
  simp only [handlePointerMove, replaceFirst_length]
  rw [if_neg (by omega), if_pos h]

theorem handlePointerMove_big (f : ℚ → ℚ) (s : GestureDecoder) (ev : PointerEvent)
    (h : s.cache.length = 0 ∨ 3 ≤ s.cache.length) :
    handlePointerMove f s ev = some ({ s with cache := replaceFirst s.cache ev }, []) := by
  simp only [handlePointerMove, replaceFirst_length]
  rw [if_neg (by omega), if_neg (by omega)]

theorem handlePointerUp_one (f : ℚ → ℚ) (s : GestureDecoder) (c ev : PointerEvent)
    (hc : s.cache = [c]) :
    handlePointerUp f s ev = some ({ s with cache := removeFirst [c] ev.pointerId },
      if s.dragStopHandler then
        [GestureEvent.dragstop ⟨c.clientX - s.x, c.clientY - s.y⟩] else []) := by
  cases hb : s.dragStopHandler <;> simp [handlePointerUp, hc, stopDrag, hb]

theorem handlePointerUp_two (f : ℚ → ℚ) (s : GestureDecoder) (a b ev : PointerEvent)
    (hc : s.cache = [a, b]) (r0 : PointerEvent) (rr : List PointerEvent)
    (hrem : removeFirst [a, b] ev.pointerId = r0 :: rr) :
    handlePointerUp f s ev = some (
      { s with cache := r0 :: rr, x := r0.clientX, y := r0.clientY },
      (if s.zoomStopHandler then
        [GestureEvent.zoomstop
          ⟨(a.clientX + b.clientX) / 2, (a.clientY + b.clientY) / 2,
           jsDiv (f ((a.clientX - b.clientX) * (a.clientX - b.clientX) +
             (a.clientY - b.clientY) * (a.clientY - b.clientY))) s.delta⟩]
       else []) ++
      (if s.dragStartHandler then [GestureEvent.dragstart ⟨0, 0⟩] else [])) := by
  cases hb1 : s.zoomStopHandler <;> cases hb2 : s.dragStartHandler <;>
    simp [handlePointerUp, hc, stopZoom, startDrag, hb1, hb2, hrem, sub_self]

theorem handlePointerUp_three (f : ℚ → ℚ) (s : GestureDecoder) (a b c ev : PointerEvent)
    (hc : s.cache = [a, b, c]) :
    handlePointerUp f s ev = some (
      { s with cache := removeFirst [a, b, c] ev.pointerId,
               delta := f ((a.clientX - b.clientX) * (a.clientX - b.clientX) +
                 (a.clientY - b.clientY) * (a.clientY - b.clientY)) },
      if s.zoomStartHandler then
        [GestureEvent.zoomstart
          ⟨(a.clientX + b.clientX) / 2, (a.clientY + b.clientY) / 2, some 1⟩]
      else []) := by
  cases hb : s.zoomStartHandler <;> simp [handlePointerUp, hc, startZoom, hb]

theorem handlePointerUp_big (f : ℚ → ℚ) (s : GestureDecoder) (ev : PointerEvent)
    (h : s.cache.length = 0 ∨ 4 ≤ s.cache.length) :
    handlePointerUp f s ev = some ({ s with cache := removeFirst s.cache ev.pointerId }, []) := by
  simp only [handlePointerUp]
  rw [if_neg (by omega), if_neg (by omega), if_neg (by omega)]

/-! ### One-step characterisation -/

theorem cache_shapes (l : List PointerEvent) :
    l = [] ∨ (∃ a, l = [a]) ∨ (∃ a b, l = [a, b]) ∨ (∃ a b c, l = [a, b, c]) ∨ 4 ≤ l.length := by
  match l with
  | [] => exact Or.inl rfl
  | [a] => exact Or.inr (Or.inl ⟨a, rfl⟩)
  | [a, b] => exact Or.inr (Or.inr (Or.inl ⟨a, b, rfl⟩))
  | [a, b, c] => exact Or.inr (Or.inr (Or.inr (Or.inl ⟨a, b, c, rfl⟩)))
  | a :: b :: c :: d :: t =>
    refine Or.inr (Or.inr (Or.inr (Or.inr ?_)))
    simp

theorem removeFirst_pair (a b : PointerEvent) (pid : ℕ) :
    removeFirst [a, b] pid = [b] ∨ removeFirst [a, b] pid = [a] ∨
      removeFirst [a, b] pid = [a, b] := by
  by_cases h1 : a.pointerId = pid
  · exact Or.inl (by simp [removeFirst, h1])
  · by_cases h2 : b.pointerId = pid
    · exact Or.inr (Or.inl (by simp [removeFirst, h1, h2]))
    · exact Or.inr (Or.inr (by simp [removeFirst, h1, h2]))

/-- Every notification is processed without error; the cache evolves as
`cacheAfter` says, the registration flags are untouched, and nothing is
dispatched when no handler is registered. -/
theorem step_some (f : ℚ → ℚ) (s : GestureDecoder) (n : Notification) :
    ∃ s' evs, step f s n = some (s', evs) ∧
      s'.cache = cacheAfter s n ∧ handlersOf s' = handlersOf s ∧
      (handlersOf s = (false, false, false, false, false, false) → evs = []) := by
  cases n with
  | down ev =>
    rcases cache_shapes s.cache with hc | ⟨a, hc⟩ | ⟨a, b, hc⟩ | ⟨a, b, c, hc⟩ | hlen
    · rw [show step f s (Notification.down ev) = handlePointerDown f s ev from rfl,
        handlePointerDown_zero f s ev hc]
      refine ⟨_, _, rfl, by simp [cacheAfter, hc], by simp [handlersOf], ?_⟩
      intro h0
      simp [handlersOf] at h0
      simp [h0.1]
    · rw [show step f s (Notification.down ev) = handlePointerDown f s ev from rfl,
        handlePointerDown_one f s a ev hc]
      refine ⟨_, _, rfl, by simp [cacheAfter, hc], by simp [handlersOf], ?_⟩
      intro h0
      simp [handlersOf] at h0
      simp [h0.2.2.1, h0.2.2.2.1]
    · rw [show step f s (Notification.down ev) = handlePointerDown f s ev from rfl,
        handlePointerDown_two f s a b ev hc]
      refine ⟨_, _, rfl, by simp [cacheAfter, hc], by simp [handlersOf], ?_⟩
      intro h0
      simp [handlersOf] at h0
      simp [h0.2.2.2.2.2]
    · rw [show step f s (Notification.down ev) = handlePointerDown f s ev from rfl,
        handlePointerDown_big f s ev (by rw [hc]; simp)]
      exact ⟨_, _, rfl, by simp [cacheAfter], by simp [handlersOf], fun _ => rfl⟩
    · rw [show step f s (Notification.down ev) = handlePointerDown f s ev from rfl,
        handlePointerDown_big f s ev (by omega)]
      exact ⟨_, _, rfl, by simp [cacheAfter], by simp [handlersOf], fun _ => rfl⟩
  | move ev =>
    by_cases h1 : s.cache.length = 1
    · rw [show step f s (Notification.move ev) = handlePointerMove f s ev from rfl,
        handlePointerMove_one f s ev h1]
      have hne : ({ s with cache := replaceFirst s.cache ev } : GestureDecoder).cache ≠ [] := by
        simp only []
        apply List.ne_nil_of_length_pos
        rw [replaceFirst_length, h1]
        omega
      obtain ⟨r, hr⟩ := Option.isSome_iff_exists.mp (updateDrag_isSome _ hne)
      have hst := updateDrag_state _ r hr
      refine ⟨r.1, r.2, by rw [hr], ?_, ?_, ?_⟩
      · simp [hst, cacheAfter]
      · simp [hst, handlersOf]
      · intro h0
        simp [handlersOf] at h0
        exact updateDrag_events _ r hr (by simp [h0.2.1])
    · by_cases h2 : s.cache.length = 2
      · rw [show step f s (Notification.move ev) = handlePointerMove f s ev from rfl,
          handlePointerMove_two f s ev h2]
        have hlen : 2 ≤ ({ s with cache := replaceFirst s.cache ev } : GestureDecoder).cache.length := by
          simp only []
          rw [replaceFirst_length, h2]
        obtain ⟨r, hr⟩ := Option.isSome_iff_exists.mp (updateZoom_isSome f _ hlen)
        have hst := updateZoom_state f _ r hr
        refine ⟨r.1, r.2, by rw [hr], ?_, ?_, ?_⟩
        · simp [hst, cacheAfter]
        · simp [hst, handlersOf]
        · intro h0
          simp [handlersOf] at h0
          exact updateZoom_events f _ r hr (by simp [h0.2.2.2.2.1])
      · rw [show step f s (Notification.move ev) = handlePointerMove f s ev from rfl,
          handlePointerMove_big f s ev (by omega)]
        exact ⟨_, _, rfl, by simp [cacheAfter], by simp [handlersOf], fun _ => rfl⟩
  | up ev =>
    rcases cache_shapes s.cache with hc | ⟨a, hc⟩ | ⟨a, b, hc⟩ | ⟨a, b, c, hc⟩ | hlen
    · rw [show step f s (Notification.up ev) = handlePointerUp f s ev from rfl,
        handlePointerUp_big f s ev (Or.inl (by rw [hc]; rfl))]
      exact ⟨_, _, rfl, by simp [cacheAfter], by simp [handlersOf], fun _ => rfl⟩
    · rw [show step f s (Notification.up ev) = handlePointerUp f s ev from rfl,
        handlePointerUp_one f s a ev hc]
      refine ⟨_, _, rfl, by simp [cacheAfter, hc], by simp [handlersOf], ?_⟩
      intro h0
      simp [handlersOf] at h0
      simp [h0.2.2.1]
    · have hrem : ∃ r0 rr, removeFirst [a, b] ev.pointerId = r0 :: rr := by
        rcases removeFirst_pair a b ev.pointerId with h | h | h
        · exact ⟨b, [], h⟩
        · exact ⟨a, [], h⟩
        · exact ⟨a, [b], h⟩
      obtain ⟨r0, rr, hr⟩ := hrem
      rw [show step f s (Notification.up ev) = handlePointerUp f s ev from rfl,
        handlePointerUp_two f s a b ev hc r0 rr hr]
      refine ⟨_, _, rfl, by simp [cacheAfter, hc, hr], by simp [handlersOf], ?_⟩
      intro h0
      simp [handlersOf] at h0
      simp [h0.1, h0.2.2.2.2.2]
    · rw [show step f s (Notification.up ev) = handlePointerUp f s ev from rfl,
        handlePointerUp_three f s a b c ev hc]
      refine ⟨_, _, rfl, by simp [cacheAfter, hc], by simp [handlersOf], ?_⟩
      intro h0
      simp [handlersOf] at h0
      simp [h0.2.2.2.1]
    · rw [show step f s (Notification.up ev) = handlePointerUp f s ev from rfl,
        handlePointerUp_big f s ev (Or.inr (by omega))]
      exact ⟨_, _, rfl, by simp [cacheAfter], by simp [handlersOf], fun _ => rfl⟩

/-! ### Whole-run lemmas -/

theorem run_noHandlers (f : ℚ → ℚ) (trace : List Notification) :
    ∀ s : GestureDecoder,
      handlersOf s = (false, false, false, false, false, false) →
      ∃ s', run f s trace = some (s', []) ∧
        handlersOf s' = (false, false, false, false, false, false) := by
  induction trace with
  | nil => exact fun s h0 => ⟨s, rfl, h0⟩
  | cons n rest ih =>
    intro s h0
    obtain ⟨s1, evs1, hstep, _, hh, hnil⟩ := step_some f s n
    obtain ⟨s', hrun, hh'⟩ := ih s1 (by rw [hh]; exact h0)
    exact ⟨s', by simp [run, hstep, hrun, hnil h0], hh'⟩

theorem run_cache_invariant (f : ℚ → ℚ) (trace : List Notification) :
    ∀ (s s' : GestureDecoder) (evs : List GestureEvent),
      freshFrom f s trace = true → run f s trace = some (s', evs) →
      (s.cache.map PointerEvent.pointerId).Nodup →
      (s'.cache.map PointerEvent.pointerId).Nodup ∧
      (s'.cache.map PointerEvent.pointerId).Sublist
        (s.cache.map PointerEvent.pointerId ++ downIds trace) := by
  induction trace with
  | nil =>
    intro s s' evs _ hrun hnd
    simp [run] at hrun
    rw [← hrun.1]
    exact ⟨hnd, by simp⟩
  | cons n rest ih =>
    intro s s' evs hfresh hrun hnd
    obtain ⟨s1, evs1, hstep, hcache, _, _⟩ := step_some f s n
    rw [run, hstep] at hrun
    dsimp only at hrun
    cases hr2 : run f s1 rest with
    | none => rw [hr2] at hrun; exact absurd hrun (by simp)
    | some r2 =>
      obtain ⟨s2, evs2⟩ := r2
      rw [hr2] at hrun
      simp at hrun
      have hs2 : s2 = s' := hrun.1
      cases n with
      | down ev =>
        rw [freshFrom, hstep] at hfresh
        simp at hfresh
        have hmap : s1.cache.map PointerEvent.pointerId =
            s.cache.map PointerEvent.pointerId ++ [ev.pointerId] := by
          rw [hcache]; simp [cacheAfter]
        have hmem : ev.pointerId ∉ s.cache.map PointerEvent.pointerId := by
          simpa using hfresh.1
        have hnd1 : (s1.cache.map PointerEvent.pointerId).Nodup := by
          rw [hmap]
          simp [List.nodup_append, hnd, hmem]
        obtain ⟨hnd2, hsub2⟩ := ih s1 s2 evs2 hfresh.2 hr2 hnd1
        subst hs2
        refine ⟨hnd2, ?_⟩
        rw [show downIds (Notification.down ev :: rest) = ev.pointerId :: downIds rest from rfl,
          ← List.singleton_append, ← List.append_assoc, ← hmap]
        exact hsub2
      | move ev =>
        rw [freshFrom.eq_def] at hfresh
        simp [hstep] at hfresh
        have hmap : s1.cache.map PointerEvent.pointerId =
            s.cache.map PointerEvent.pointerId := by
          rw [hcache]; simp [cacheAfter, replaceFirst_map_pointerId]
        obtain ⟨hnd2, hsub2⟩ := ih s1 s2 evs2 hfresh hr2 (hmap ▸ hnd)
        subst hs2
        refine ⟨hnd2, ?_⟩
        rw [show downIds (Notification.move ev :: rest) = downIds rest from rfl, ← hmap]
        exact hsub2
      | up ev =>
        rw [freshFrom.eq_def] at hfresh
        simp [hstep] at hfresh
        have hmap : (s1.cache.map PointerEvent.pointerId).Sublist
            (s.cache.map PointerEvent.pointerId) := by
          rw [hcache]
          exact (removeFirst_sublist s.cache ev.pointerId).map PointerEvent.pointerId
        obtain ⟨hnd2, hsub2⟩ := ih s1 s2 evs2 hfresh hr2 (hnd.sublist hmap)
        subst hs2
        refine ⟨hnd2, hsub2.trans ?_⟩
        rw [show downIds (Notification.up ev :: rest) = downIds rest from rfl]
        exact hmap.append (List.Sublist.refl (downIds rest))

/-! ### The claims -/

/-- C5: whenever the drag gesture starts, the drag anchor is set to the current
position of the first cached contact, and the dispatched `dragstart` carries
displacement exactly (0, 0). -/
theorem startDrag_anchors_and_reports_zero (s : GestureDecoder) (c : PointerEvent)
    (rest : List PointerEvent) (hc : s.cache = c :: rest) (hb : s.dragStartHandler = true) :
    startDrag s = some ({ s with x := c.clientX, y := c.clientY },
      [GestureEvent.dragstart ⟨0, 0⟩]) := by
  rw [startDrag_eq s c rest hc, hb]
  simp

theorem startDrag_anchors_and_reports_zero_witness :
    startDrag ⟨[⟨0, 3, 4⟩], 7, 8, 9, true, false, false, false, false, false⟩ =
      some (⟨[⟨0, 3, 4⟩], 3, 4, 9, true, false, false, false, false, false⟩,
        [GestureEvent.dragstart ⟨0, 0⟩]) :=
  startDrag_anchors_and_reports_zero
    ⟨[⟨0, 3, 4⟩], 7, 8, 9, true, false, false, false, false, false⟩ ⟨0, 3, 4⟩ [] rfl rfl

/-- C6: every `zoomupdate` and every `zoomstop` reports the midpoint of the
first two cached contacts at the time of the event, and as scale the current
distance between them divided (in the JS sense) by the zoom anchor. -/
theorem zoom_update_stop_report_midpoint_and_relative_scale (f : ℚ → ℚ)
    (s : GestureDecoder) (c0 c1 : PointerEvent) (rest : List PointerEvent)
    (hc : s.cache = c0 :: c1 :: rest) :
    (s.zoomUpdateHandler = true →
      updateZoom f s = some (s, [GestureEvent.zoomupdate
        ⟨(c0.clientX + c1.clientX) / 2, (c0.clientY + c1.clientY) / 2,
         jsDiv (f ((c0.clientX - c1.clientX) * (c0.clientX - c1.clientX) +
           (c0.clientY - c1.clientY) * (c0.clientY - c1.clientY))) s.delta⟩])) ∧
    (s.zoomStopHandler = true →
      stopZoom f s = some (s, [GestureEvent.zoomstop
        ⟨(c0.clientX + c1.clientX) / 2, (c0.clientY + c1.clientY) / 2,
         jsDiv (f ((c0.clientX - c1.clientX) * (c0.clientX - c1.clientX) +
           (c0.clientY - c1.clientY) * (c0.clientY - c1.clientY))) s.delta⟩])) := by
  constructor
  · intro hb
    rw [updateZoom_eq f s c0 c1 rest hc, hb]
    simp
  · intro hb
    rw [stopZoom_eq f s c0 c1 rest hc, hb]
    simp

theorem zoom_update_stop_report_midpoint_and_relative_scale_witness :
    (updateZoom (fun q => q)
        ⟨[⟨0, 0, 0⟩, ⟨1, 4, 0⟩], 0, 0, 2, false, false, false, false, true, true⟩ =
      some (⟨[⟨0, 0, 0⟩, ⟨1, 4, 0⟩], 0, 0, 2, false, false, false, false, true, true⟩,
        [GestureEvent.zoomupdate ⟨2, 0, some 8⟩])) ∧
    (stopZoom (fun q => q)
        ⟨[⟨0, 0, 0⟩, ⟨1, 4, 0⟩], 0, 0, 2, false, false, false, false, true, true⟩ =
      some (⟨[⟨0, 0, 0⟩, ⟨1, 4, 0⟩], 0, 0, 2, false, false, false, false, true, true⟩,
        [GestureEvent.zoomstop ⟨2, 0, some 8⟩])) := by
  have h := zoom_update_stop_report_midpoint_and_relative_scale (fun q => q)
    ⟨[⟨0, 0, 0⟩, ⟨1, 4, 0⟩], 0, 0, 2, false, false, false, false, true, true⟩
    ⟨0, 0, 0⟩ ⟨1, 4, 0⟩ [] rfl
  constructor
  · rw [h.1 rfl]
    norm_num [jsDiv]
  · rw [h.2 rfl]
    norm_num [jsDiv]

/-- C7: a contact update processed while the cache is empty, or while it holds
three or more contacts (the frozen state), dispatches no event at all. -/
theorem move_in_frozen_or_idle_dispatches_nothing (f : ℚ → ℚ) (s : GestureDecoder)
    (ev : PointerEvent) (h : s.cache.length = 0 ∨ 3 ≤ s.cache.length) :
    step f s (Notification.move ev) =
      some ({ s with cache := replaceFirst s.cache ev }, []) :=
  handlePointerMove_big f s ev h

theorem move_in_frozen_or_idle_dispatches_nothing_witness :
    step (fun q => q)
      ⟨[⟨0, 0, 0⟩, ⟨1, 1, 1⟩, ⟨2, 2, 2⟩], 0, 0, 1, true, true, true, true, true, true⟩
      (Notification.move ⟨1, 5, 5⟩) =
      some (⟨[⟨0, 0, 0⟩, ⟨1, 5, 5⟩, ⟨2, 2, 2⟩], 0, 0, 1, true, true, true, true, true, true⟩,
        []) := by
  rw [move_in_frozen_or_idle_dispatches_nothing (fun q => q)
    ⟨[⟨0, 0, 0⟩, ⟨1, 1, 1⟩, ⟨2, 2, 2⟩], 0, 0, 1, true, true, true, true, true, true⟩
    ⟨1, 5, 5⟩ (Or.inr (by norm_num))]
  rfl

/-- C8: when the zoom anchor is zero, `updateZoom` and `stopZoom` take no
special branch and raise no error: the event is dispatched as always, and the
reported scale is the non-finite result of the unguarded division by zero. -/
theorem zero_anchor_zoom_unguarded_nonfinite_scale (f : ℚ → ℚ) (s : GestureDecoder)
    (c0 c1 : PointerEvent) (rest : List PointerEvent) (hc : s.cache = c0 :: c1 :: rest)
    (hz : s.delta = 0) :
    (s.zoomUpdateHandler = true →
      updateZoom f s = some (s, [GestureEvent.zoomupdate
        ⟨(c0.clientX + c1.clientX) / 2, (c0.clientY + c1.clientY) / 2, none⟩])) ∧
    (s.zoomStopHandler = true →
      stopZoom f s = some (s, [GestureEvent.zoomstop
        ⟨(c0.clientX + c1.clientX) / 2, (c0.clientY + c1.clientY) / 2, none⟩])) := by
  constructor
  · intro hb
    rw [updateZoom_eq f s c0 c1 rest hc, hb]
    simp [jsDiv, hz]
  · intro hb
    rw [stopZoom_eq f s c0 c1 rest hc, hb]
    simp [jsDiv, hz]

theorem zero_anchor_zoom_unguarded_nonfinite_scale_witness :
    (updateZoom (fun q => q)
        ⟨[⟨0, 1, 1⟩, ⟨1, 1, 1⟩], 0, 0, 0, false, false, false, false, true, true⟩ =
      some (⟨[⟨0, 1, 1⟩, ⟨1, 1, 1⟩], 0, 0, 0, false, false, false, false, true, true⟩,
        [GestureEvent.zoomupdate ⟨1, 1, none⟩])) ∧
    (stopZoom (fun q => q)
        ⟨[⟨0, 1, 1⟩, ⟨1, 1, 1⟩], 0, 0, 0, false, false, false, false, true, true⟩ =
      some (⟨[⟨0, 1, 1⟩, ⟨1, 1, 1⟩], 0, 0, 0, false, false, false, false, true, true⟩,
        [GestureEvent.zoomstop ⟨1, 1, none⟩])) := by
  have h := zero_anchor_zoom_unguarded_nonfinite_scale (fun q => q)
    ⟨[⟨0, 1, 1⟩, ⟨1, 1, 1⟩], 0, 0, 0, false, false, false, false, true, true⟩
    ⟨0, 1, 1⟩ ⟨1, 1, 1⟩ [] rfl rfl
  constructor
  · rw [h.1 rfl]
    norm_num
  · rw [h.2 rfl]
    norm_num

/-- C10: the update and stop operations of both gestures leave the entire
decoder state unchanged; `startDrag` rewrites only the drag anchor `x`,`y` and
`startZoom` only the zoom anchor `delta`. -/
theorem anchors_mutated_only_by_starts (f : ℚ → ℚ) (s : GestureDecoder)
    (r1 r2 r3 r4 r5 r6 : GestureDecoder × List GestureEvent) :
    (updateDrag s = some r1 → r1.1 = s) ∧
    (stopDrag s = some r2 → r2.1 = s) ∧
    (updateZoom f s = some r3 → r3.1 = s) ∧
    (stopZoom f s = some r4 → r4.1 = s) ∧
    (startDrag s = some r5 → ∃ a b, r5.1 = { s with x := a, y := b }) ∧
    (startZoom f s = some r6 → ∃ d, r6.1 = { s with delta := d }) :=
  ⟨updateDrag_state s r1, stopDrag_state s r2, updateZoom_state f s r3, stopZoom_state f s r4,
   startDrag_shape s r5, startZoom_shape f s r6⟩

theorem anchors_mutated_only_by_starts_witness :
    (((⟨[⟨0, 1, 2⟩, ⟨1, 3, 4⟩], 5, 6, 7, true, true, true, true, true, true⟩,
        [GestureEvent.dragupdate ⟨-4, -4⟩]) : GestureDecoder × List GestureEvent).1 =
      ⟨[⟨0, 1, 2⟩, ⟨1, 3, 4⟩], 5, 6, 7, true, true, true, true, true, true⟩) ∧
    (∃ a b, ((⟨⟨[⟨0, 1, 2⟩, ⟨1, 3, 4⟩], 1, 2, 7, true, true, true, true, true, true⟩,
        [GestureEvent.dragstart ⟨0, 0⟩]⟩ : GestureDecoder × List GestureEvent).1 =
      { (⟨[⟨0, 1, 2⟩, ⟨1, 3, 4⟩], 5, 6, 7, true, true, true, true, true, true⟩ : GestureDecoder)
        with x := a, y := b })) ∧
    (∃ d, ((⟨⟨[⟨0, 1, 2⟩, ⟨1, 3, 4⟩], 5, 6, 8, true, true, true, true, true, true⟩,
        [GestureEvent.zoomstart ⟨2, 3, some 1⟩]⟩ : GestureDecoder × List GestureEvent).1 =
      { (⟨[⟨0, 1, 2⟩, ⟨1, 3, 4⟩], 5, 6, 7, true, true, true, true, true, true⟩ : GestureDecoder)
        with delta := d })) := by
  have h := anchors_mutated_only_by_starts (fun q => q)
    ⟨[⟨0, 1, 2⟩, ⟨1, 3, 4⟩], 5, 6, 7, true, true, true, true, true, true⟩
    (⟨[⟨0, 1, 2⟩, ⟨1, 3, 4⟩], 5, 6, 7, true, true, true, true, true, true⟩,
      [GestureEvent.dragupdate ⟨-4, -4⟩])
    (⟨[⟨0, 1, 2⟩, ⟨1, 3, 4⟩], 5, 6, 7, true, true, true, true, true, true⟩,
      [GestureEvent.dragstop ⟨-4, -4⟩])
    (⟨[⟨0, 1, 2⟩, ⟨1, 3, 4⟩], 5, 6, 7, true, true, true, true, true, true⟩,
      [GestureEvent.zoomupdate ⟨2, 3, some (8 / 7)⟩])
    (⟨[⟨0, 1, 2⟩, ⟨1, 3, 4⟩], 5, 6, 7, true, true, true, true, true, true⟩,
      [GestureEvent.zoomstop ⟨2, 3, some (8 / 7)⟩])
    (⟨[⟨0, 1, 2⟩, ⟨1, 3, 4⟩], 1, 2, 7, true, true, true, true, true, true⟩,
      [GestureEvent.dragstart ⟨0, 0⟩])
    (⟨[⟨0, 1, 2⟩, ⟨1, 3, 4⟩], 5, 6, 8, true, true, true, true, true, true⟩,
      [GestureEvent.zoomstart ⟨2, 3, some 1⟩])
  refine ⟨h.1 ?_, h.2.2.2.2.1 ?_, h.2.2.2.2.2 ?_⟩
  · rw [updateDrag_eq _ ⟨0, 1, 2⟩ [⟨1, 3, 4⟩] rfl]
    norm_num
  · rw [startDrag_eq _ ⟨0, 1, 2⟩ [⟨1, 3, 4⟩] rfl]
    norm_num
  · rw [startZoom_eq _ _ ⟨0, 1, 2⟩ ⟨1, 3, 4⟩ [] rfl]
    norm_num

/-- C3: a removal seen while exactly three contacts are cached dispatches a
`zoomstart` computed from the pre-removal index 0/1 pair — their midpoint as
center and scale one — and re-anchors the zoom to that pair's pre-removal
distance, regardless of which of the three contacts departs. -/
theorem removal_from_three_restarts_zoom_from_first_pair (f : ℚ → ℚ)
    (s : GestureDecoder) (a b c ev : PointerEvent) (hc : s.cache = [a, b, c])
    (hz : s.zoomStartHandler = true) :
    step f s (Notification.up ev) = some (
      { s with cache := removeFirst [a, b, c] ev.pointerId,
               delta := f ((a.clientX - b.clientX) * (a.clientX - b.clientX) +
                 (a.clientY - b.clientY) * (a.clientY - b.clientY)) },
      [GestureEvent.zoomstart
        ⟨(a.clientX + b.clientX) / 2, (a.clientY + b.clientY) / 2, some 1⟩]) := by
  rw [show step f s (Notification.up ev) = handlePointerUp f s ev from rfl,
    handlePointerUp_three f s a b c ev hc, hz]
  simp

theorem removal_from_three_restarts_zoom_from_first_pair_witness :
    step (fun q => q)
      ⟨[⟨0, 0, 0⟩, ⟨1, 2, 0⟩, ⟨2, 10, 10⟩], 0, 0, 1, false, false, false, true, false, false⟩
      (Notification.up ⟨0, 0, 0⟩) =
    some (⟨[⟨1, 2, 0⟩, ⟨2, 10, 10⟩], 0, 0, 4, false, false, false, true, false, false⟩,
      [GestureEvent.zoomstart ⟨1, 0, some 1⟩]) := by
  rw [removal_from_three_restarts_zoom_from_first_pair (fun q => q)
    ⟨[⟨0, 0, 0⟩, ⟨1, 2, 0⟩, ⟨2, 10, 10⟩], 0, 0, 1, false, false, false, true, false, false⟩
    ⟨0, 0, 0⟩ ⟨1, 2, 0⟩ ⟨2, 10, 10⟩ ⟨0, 0, 0⟩ rfl rfl]
  norm_num [removeFirst]

/-- C4: a removal seen while exactly two contacts are cached and matching one
of them dispatches a `zoomstop` computed from the pre-removal positions, then
removes the contact, then dispatches a `dragstart` with displacement (0, 0)
whose anchor is the remaining contact's post-removal position. -/
theorem removal_from_two_stops_zoom_then_restarts_drag (f : ℚ → ℚ)
    (s : GestureDecoder) (a b ev : PointerEvent) (hc : s.cache = [a, b])
    (hz : s.zoomStopHandler = true) (hd : s.dragStartHandler = true)
    (hid : ev.pointerId = a.pointerId ∨ ev.pointerId = b.pointerId) :
    step f s (Notification.up ev) = some (
      { s with cache := [if ev.pointerId = a.pointerId then b else a],
               x := (if ev.pointerId = a.pointerId then b else a).clientX,
               y := (if ev.pointerId = a.pointerId then b else a).clientY },
      [GestureEvent.zoomstop
        ⟨(a.clientX + b.clientX) / 2, (a.clientY + b.clientY) / 2,
         jsDiv (f ((a.clientX - b.clientX) * (a.clientX - b.clientX) +
           (a.clientY - b.clientY) * (a.clientY - b.clientY))) s.delta⟩,
       GestureEvent.dragstart ⟨0, 0⟩]) := by
  by_cases ha : ev.pointerId = a.pointerId
  · have hrem : removeFirst [a, b] ev.pointerId = [b] := by
      simp [removeFirst, ha.symm]
    rw [show step f s (Notification.up ev) = handlePointerUp f s ev from rfl,
      handlePointerUp_two f s a b ev hc b [] hrem, hz, hd]
    simp [ha]
  · have hb : ev.pointerId = b.pointerId := hid.resolve_left ha
    have hrem : removeFirst [a, b] ev.pointerId = [a] := by
      have ha2 : ¬ a.pointerId = ev.pointerId := fun h => ha h.symm
      simp [removeFirst, ha2, hb.symm]
    rw [show step f s (Notification.up ev) = handlePointerUp f s ev from rfl,
      handlePointerUp_two f s a b ev hc a [] hrem, hz, hd]
    simp [ha]

theorem removal_from_two_stops_zoom_then_restarts_drag_witness :
    step (fun q => q)
      ⟨[⟨0, 0, 0⟩, ⟨1, 4, 0⟩], 9, 9, 2, true, false, false, false, false, true⟩
      (Notification.up ⟨0, 0, 0⟩) =
    some (⟨[⟨1, 4, 0⟩], 4, 0, 2, true, false, false, false, false, true⟩,
      [GestureEvent.zoomstop ⟨2, 0, some 8⟩, GestureEvent.dragstart ⟨0, 0⟩]) := by
  rw [removal_from_two_stops_zoom_then_restarts_drag (fun q => q)
    ⟨[⟨0, 0, 0⟩, ⟨1, 4, 0⟩], 9, 9, 2, true, false, false, false, false, true⟩
    ⟨0, 0, 0⟩ ⟨1, 4, 0⟩ ⟨0, 0, 0⟩ rfl rfl rfl (Or.inl rfl)]
  norm_num [jsDiv]

/-- C1 counterexample: a contact update whose identity matches no cached
contact is not a complete no-op — with one contact cached and a `dragupdate`
handler registered, the unmatched update still dispatches a `dragupdate`. -/
theorem unmatchedMove_dispatches_event :
    (1 : ℕ) ∉ ([⟨0, 1, 2⟩] : List PointerEvent).map PointerEvent.pointerId ∧
    step (fun q => q) ⟨[⟨0, 1, 2⟩], 0, 0, 0, false, true, false, false, false, false⟩
      (Notification.move ⟨1, 5, 5⟩) =
      some (⟨[⟨0, 1, 2⟩], 0, 0, 0, false, true, false, false, false, false⟩,
        [GestureEvent.dragupdate ⟨1, 2⟩]) := by
  refine ⟨by decide, ?_⟩
  rw [show step (fun q : ℚ => q)
      ⟨[⟨0, 1, 2⟩], 0, 0, 0, false, true, false, false, false, false⟩
      (Notification.move ⟨1, 5, 5⟩) =
    handlePointerMove (fun q : ℚ => q)
      ⟨[⟨0, 1, 2⟩], 0, 0, 0, false, true, false, false, false, false⟩ ⟨1, 5, 5⟩ from rfl,
    handlePointerMove_one (fun q : ℚ => q)
      ⟨[⟨0, 1, 2⟩], 0, 0, 0, false, true, false, false, false, false⟩ ⟨1, 5, 5⟩ rfl]
  norm_num [replaceFirst, updateDrag]

/-- C1 (amended): a contact update or removal whose identity matches no cached
contact never fails and leaves the cache unchanged — for updates the entire
state is unchanged — but the size-selected gesture actions still run, so
events may still be dispatched and the anchors may still be rewritten. -/
theorem unmatchedNotification_preserves_cache (f : ℚ → ℚ) (s : GestureDecoder)
    (ev : PointerEvent) (h : ev.pointerId ∉ s.cache.map PointerEvent.pointerId) :
    (∃ evs, step f s (Notification.move ev) = some (s, evs)) ∧
    (∃ s' evs, step f s (Notification.up ev) = some (s', evs) ∧ s'.cache = s.cache) := by
  have hrepl : replaceFirst s.cache ev = s.cache := replaceFirst_not_mem s.cache ev h
  have heta : ({ s with cache := replaceFirst s.cache ev } : GestureDecoder) = s := by
    rw [hrepl]
  constructor
  · by_cases h1 : s.cache.length = 1
    · rw [show step f s (Notification.move ev) = handlePointerMove f s ev from rfl,
        handlePointerMove_one f s ev h1, heta]
      have hne : s.cache ≠ [] := by
        intro hnil
        rw [hnil] at h1
        simp at h1
      obtain ⟨⟨s1, evs1⟩, hr⟩ := Option.isSome_iff_exists.mp (updateDrag_isSome s hne)
      have hst : s1 = s := updateDrag_state s (s1, evs1) hr
      exact ⟨evs1, by rw [hr, hst]⟩
    · by_cases h2 : s.cache.length = 2
      · rw [show step f s (Notification.move ev) = handlePointerMove f s ev from rfl,
          handlePointerMove_two f s ev h2, heta]
        obtain ⟨⟨s1, evs1⟩, hr⟩ :=
          Option.isSome_iff_exists.mp (updateZoom_isSome f s (by omega))
        have hst : s1 = s := updateZoom_state f s (s1, evs1) hr
        exact ⟨evs1, by rw [hr, hst]⟩
      · rw [show step f s (Notification.move ev) = handlePointerMove f s ev from rfl,
          handlePointerMove_big f s ev (by omega), heta]
        exact ⟨[], rfl⟩
  · obtain ⟨s1, evs1, hstep, hcache, _, _⟩ := step_some f s (Notification.up ev)
    refine ⟨s1, evs1, hstep, ?_⟩
    rw [hcache]
    exact removeFirst_not_mem s.cache ev.pointerId h

theorem unmatchedNotification_preserves_cache_witness :
    (2 : ℕ) ∉ ([⟨0, 1, 2⟩] : List PointerEvent).map PointerEvent.pointerId ∧
    ((∃ evs, step (fun q => q)
        ⟨[⟨0, 1, 2⟩], 0, 0, 0, false, true, false, false, false, false⟩
        (Notification.move ⟨2, 7, 7⟩) =
        some (⟨[⟨0, 1, 2⟩], 0, 0, 0, false, true, false, false, false, false⟩, evs)) ∧
     (∃ s' evs, step (fun q => q)
        ⟨[⟨0, 1, 2⟩], 0, 0, 0, false, true, false, false, false, false⟩
        (Notification.up ⟨2, 7, 7⟩) = some (s', evs) ∧
        s'.cache = (⟨[⟨0, 1, 2⟩], 0, 0, 0, false, true, false, false, false,
          false⟩ : GestureDecoder).cache)) :=
  ⟨by decide, unmatchedNotification_preserves_cache (fun q => q)
    ⟨[⟨0, 1, 2⟩], 0, 0, 0, false, true, false, false, false, false⟩ ⟨2, 7, 7⟩ (by decide)⟩

/-- C9: with no registered handlers, every notification sequence from the
freshly constructed decoder is processed without error — every cache access
the operations make is in bounds — and dispatches nothing at all. -/
theorem run_without_handlers_never_fails_and_dispatches_nothing (f : ℚ → ℚ)
    (trace : List Notification) :
    ∃ s', run f initialDecoder trace = some (s', []) := by
  obtain ⟨s', hrun, _⟩ := run_noHandlers f trace initialDecoder rfl
  exact ⟨s', hrun⟩

/-- C2 counterexample: two `pointerdown` notifications with the same identity
are both appended, so the cache can hold two contacts with one identity. -/
theorem duplicateDown_breaks_nodup :
    run (fun q => q) initialDecoder
      [Notification.down ⟨0, 1, 1⟩, Notification.down ⟨0, 2, 2⟩] =
      some (⟨[⟨0, 1, 1⟩, ⟨0, 2, 2⟩], 1, 1, 2, false, false, false, false, false, false⟩, []) ∧
    ¬ (([⟨0, 1, 1⟩, ⟨0, 2, 2⟩] : List PointerEvent).map PointerEvent.pointerId).Nodup := by
  constructor
  · norm_num [run, step, initialDecoder, handlePointerDown, startDrag, stopDrag, startZoom]
  · decide

/-- C2 (amended): over any notification sequence from the freshly constructed
decoder in which every contact-added notification carries an identity not in
the cache at that moment, the cache never holds two contacts with the same
identity, and the cached identities form a sub-sequence of the arrival order
of the added contacts (removals do not reorder survivors). -/
theorem run_cache_nodup_and_arrival_order (f : ℚ → ℚ) (trace : List Notification)
    (s' : GestureDecoder) (evs : List GestureEvent)
    (hfresh : freshFrom f initialDecoder trace = true)
    (hrun : run f initialDecoder trace = some (s', evs)) :
    (s'.cache.map PointerEvent.pointerId).Nodup ∧
    (s'.cache.map PointerEvent.pointerId).Sublist (downIds trace) := by
  have h := run_cache_invariant f trace initialDecoder s' evs hfresh hrun
    (by simp [initialDecoder])
  simpa [initialDecoder] using h

theorem run_cache_nodup_and_arrival_order_witness :
    ((⟨[⟨0, 0, 0⟩, ⟨1, 0, 0⟩], 0, 0, 0, false, false, false, false, false, false⟩ :
      GestureDecoder).cache.map PointerEvent.pointerId).Nodup ∧
    ((⟨[⟨0, 0, 0⟩, ⟨1, 0, 0⟩], 0, 0, 0, false, false, false, false, false, false⟩ :
      GestureDecoder).cache.map PointerEvent.pointerId).Sublist
      (downIds [Notification.down ⟨0, 0, 0⟩, Notification.down ⟨1, 0, 0⟩]) :=
  run_cache_nodup_and_arrival_order (fun q => q)
    [Notification.down ⟨0, 0, 0⟩, Notification.down ⟨1, 0, 0⟩]
    ⟨[⟨0, 0, 0⟩, ⟨1, 0, 0⟩], 0, 0, 0, false, false, false, false, false, false⟩ []
    (by norm_num [freshFrom, step, initialDecoder, handlePointerDown, startDrag,
      stopDrag, startZoom])
    (by norm_num [run, step, initialDecoder, handlePointerDown, startDrag,
      stopDrag, startZoom])
